import Mathlib

/-!
Verification of the record-extraction logic of `parse_logic.py`
(`parse_pdf_bytes` and its helper patterns and functions).

Embedding conventions:
* Document text is a `List Char`.  The PDF-to-text step (`_extract_full_text`,
  an external collaborator per the design) is outside the model: the extractor
  is modelled directly on the text it scans.
* Python regular expressions are embedded by a small backtracking matcher
  (`reMatch` / `reSearch`) with Python `re.search` semantics: leftmost start
  position wins, alternatives are tried left to right, greedy repetition tries
  the longest run first, lazy repetition the shortest; capture groups record
  the span consumed on the successful path, the latest assignment winning.
  All patterns in the source are compiled with `re.I`; literal matching is
  therefore case-insensitive.  Character classes (`\s`, `\d`, `\w`, `[A-Z]`
  with `re.I`) are modelled over their ASCII ranges.
* Python `float` values are modelled as exact rationals `ℚ`; the numeric
  strings handled here are plain decimal literals (digits, one optional dot,
  thousands commas already stripped), so the model is the exact value the
  source computes up to binary rounding.
* The `try/except` around the body of `parse_pdf_bytes` is modelled by
  `Option`: a step that would raise yields `none`, and the outermost function
  maps `none` to the minimal Timestamp/Filename-only row, exactly as the
  source's `except Exception` branch does.
* `datetime.now()` is modelled as an explicit clock parameter `now : Nat`.
-/

/-- ASCII whitespace recognised by Python's `\s` (and `str.strip`). -/
def wsp (c : Char) : Bool :=
  c = ' ' || c = '\t' || c = '\n' || c = '\r' || c = '\x0b' || c = '\x0c'

/-- Class `\d`: a decimal digit. -/
def digitC (c : Char) : Bool := c.isDigit

/-- the class `[\d,.]` used for numeric tokens. -/
def numChar (c : Char) : Bool := c.isDigit || c = ',' || c = '.'

/-- the class `[A-Za-z\- ]` of the invoice-date pattern. -/
def dateChar (c : Char) : Bool := c.isAlpha || c = '-' || c = ' '

/-- Class `[A-Z]` under `re.I`: any ASCII letter. -/
def alphaC (c : Char) : Bool := c.isAlpha

/-- the class `[\d,]` of the freight-amount patterns. -/
def digitComma (c : Char) : Bool := c.isDigit || c = ','

/-- Class `\w`: a word character, for `\b` word boundaries. -/
def wordChar (c : Char) : Bool := c.isAlphanum || c = '_'

/-- Regular expressions as used by the source patterns.  Repetition is
restricted to single-character classes (every starred/plus-quantified
sub-pattern in the source is a character class), which keeps the matcher
structurally recursive. -/
inductive RE where
  | eps : RE
  | lit (c : Char) : RE
  | cls (p : Char → Bool) : RE
  | seq (a b : RE) : RE
  | alt (a b : RE) : RE
  | rep (p : Char → Bool) (lo : Nat) (hi : Option Nat) (lz : Bool) : RE
  | group (n : Nat) (r : RE) : RE

/-- Length of the longest run of characters satisfying `p` at the head. -/
def leadCount (p : Char → Bool) : List Char → Nat
  | [] => 0
  | c :: cs => if p c then leadCount p cs + 1 else 0

/-- Ascending list `lo, lo+1, …, hi` (empty when `hi < lo`). -/
def rangeAsc (lo hi : Nat) : List Nat :=
  (List.range (hi + 1 - lo)).map (· + lo)

/-- Possible remainders after matching `p{lo,hi}` at the head of `l`,
in backtracking priority order (longest first when greedy, shortest first
when lazy). -/
def repRemainders (p : Char → Bool) (lo : Nat) (hi : Option Nat) (lz : Bool)
    (l : List Char) : List (List Char) :=
  let maxr := match hi with
    | none => leadCount p l
    | some h => min h (leadCount p l)
  if lo > maxr then []
  else
    let ks := rangeAsc lo maxr
    (if lz then ks else ks.reverse).map (fun k => l.drop k)

/-- Capture environment: group number ↦ captured characters, most recent
assignment first. -/
abbrev Caps := List (Nat × List Char)

/-- Anchored match of `r` at the head of `l`: every way the match can
succeed, as `(remaining input, captures)`, in backtracking priority order.
Literal characters compare case-insensitively (`re.I`). -/
def reMatch : RE → List Char → Caps → List (List Char × Caps)
  | .eps, l, caps => [(l, caps)]
  | .lit c, l, caps =>
    match l with
    | [] => []
    | d :: cs => if d.toLower = c.toLower then [(cs, caps)] else []
  | .cls p, l, caps =>
    match l with
    | [] => []
    | d :: cs => if p d then [(cs, caps)] else []
  | .seq a b, l, caps =>
    (reMatch a l caps).flatMap (fun rc => reMatch b rc.1 rc.2)
  | .alt a b, l, caps => reMatch a l caps ++ reMatch b l caps
  | .rep p lo hi lz, l, caps =>
    (repRemainders p lo hi lz l).map (fun rest => (rest, caps))
  | .group n r, l, caps =>
    (reMatch r l caps).map
      (fun rc => (rc.1, (n, l.take (l.length - rc.1.length)) :: rc.2))

/-- Search as `re.search`: try each start position left to right; at the first
position where the pattern matches, return the captures of the
highest-priority match. -/
def reSearch (r : RE) : List Char → Option Caps
  | [] =>
    match reMatch r [] [] with
    | rc :: _ => some rc.2
    | [] => none
  | c :: cs =>
    match reMatch r (c :: cs) [] with
    | rc :: _ => some rc.2
    | [] => reSearch r cs

/-- Lookup `m.group n`: the captured text of group `n`, `none` when the group did
not participate in the match. -/
def grp (caps : Caps) (n : Nat) : Option (List Char) :=
  (caps.find? (fun pr => pr.1 == n)).map (fun pr => pr.2)

/-- A case-insensitive literal string. -/
def strLit (s : String) : RE :=
  s.data.foldr (fun c r => RE.seq (RE.lit c) r) RE.eps

/-- Pattern `\s+` -/
def wspPlus : RE := .rep wsp 1 none false
/-- Pattern `\s*` -/
def wspStar : RE := .rep wsp 0 none false
/-- Body of `([\d,.]+)` -/
def numPlus : RE := .rep numChar 1 none false
/-- Pattern `[A-Z]{3}` under `re.I` -/
def alpha3 : RE := .rep alphaC 3 (some 3) false

/-- Pattern `SHIPPER\s+(.+?)\s+CONSIGNEE` with `re.S` (dot matches newline). -/
def SHIPPER_PAT : RE :=
  .seq (strLit "SHIPPER") (.seq wspPlus
    (.seq (.group 1 (.rep (fun _ => true) 1 none true))
      (.seq wspPlus (strLit "CONSIGNEE"))))

/-- Pattern `INVOICE\s+DATE\s+([0-9]{1,2}[A-Za-z\- ]+[0-9]{2,4})` -/
def INVOICE_DATE : RE :=
  .seq (strLit "INVOICE") (.seq wspPlus (.seq (strLit "DATE") (.seq wspPlus
    (.group 1 (.seq (.rep digitC 1 (some 2) false)
      (.seq (.rep dateChar 1 none false) (.rep digitC 2 (some 4) false)))))))

/-- Units `KG|KGS?|LB`: mass units of the detail row. -/
def unitMass : RE :=
  .alt (strLit "KG")
    (.alt (.seq (strLit "KG") (.alt (.lit 'S') .eps)) (strLit "LB"))

/-- Units `M3|CBM` -/
def unitVol : RE := .alt (strLit "M3") (strLit "CBM")

/-- Units `KG|KGS?|LB|M3|CBM`: any unit accepted for the chargeable value. -/
def unitAny : RE :=
  .alt (strLit "KG")
    (.alt (.seq (strLit "KG") (.alt (.lit 'S') .eps))
      (.alt (strLit "LB") (.alt (strLit "M3") (strLit "CBM"))))

/-- The combined detail-row pattern `ROW_PAT`:
`([\d,.]+)\s*(KG|KGS?|LB)\s+([\d,.]+)\s*(M3|CBM)\s+([\d,.]+)\s*(KG|KGS?|LB|M3|CBM)\s+(\d+)\s*CTN`. -/
def ROW_PAT : RE :=
  .seq (.group 1 numPlus) (.seq wspStar (.seq (.group 2 unitMass)
    (.seq wspPlus (.seq (.group 3 numPlus) (.seq wspStar (.seq (.group 4 unitVol)
      (.seq wspPlus (.seq (.group 5 numPlus) (.seq wspStar (.seq (.group 6 unitAny)
        (.seq wspPlus (.seq (.group 7 (.rep digitC 1 none false))
          (.seq wspStar (strLit "CTN"))))))))))))))

/-- Pattern `([\d,.]+)\s*KG` -/
def KG_PAT : RE := .seq (.group 1 numPlus) (.seq wspStar (strLit "KG"))

/-- Pattern `([\d,.]+)\s*(?:M3|CBM)` -/
def M3_PAT : RE := .seq (.group 1 numPlus) (.seq wspStar unitVol)

/-- Pattern `(\d+)\s*CTN` -/
def CTN_PAT : RE :=
  .seq (.group 1 (.rep digitC 1 none false)) (.seq wspStar (strLit "CTN"))

/-- Pattern `CHARGEABLE\s+([\d,.]+)\s*(KG|KGS?|LB|M3|CBM)` -/
def CHARGEABLE_LINE : RE :=
  .seq (strLit "CHARGEABLE") (.seq wspPlus
    (.seq (.group 1 numPlus) (.seq wspStar (.group 2 unitAny))))

/-- Pattern `SUBTOTAL\s+(?:([A-Z]{3})\s+)?([\d,.]+)` -/
def SUBTOTAL_PAT : RE :=
  .seq (strLit "SUBTOTAL") (.seq wspPlus
    (.seq (.alt (.seq (.group 1 alpha3) wspPlus) .eps) (.group 2 numPlus)))

/-- Pattern `([\d,]+\.\d{2})`: a two-decimal amount, as one capture group. -/
def amountGroup2 : RE :=
  .group 2 (.seq (.rep digitComma 1 none false)
    (.seq (.lit '.') (.rep digitC 2 (some 2) false)))

/-- Pattern `AIR\s+FREIGHT\s+(?:([A-Z]{3})\s+)?([\d,]+\.\d{2})` -/
def AIR_FRT_PAT : RE :=
  .seq (strLit "AIR") (.seq wspPlus (.seq (strLit "FREIGHT") (.seq wspPlus
    (.seq (.alt (.seq (.group 1 alpha3) wspPlus) .eps) amountGroup2))))

/-- Pattern `(?:OCEAN|SEA)\s+FREIGHT\s+(?:([A-Z]{3})\s+)?([\d,]+\.\d{2})` -/
def OCEAN_FRT_PAT : RE :=
  .seq (.alt (strLit "OCEAN") (strLit "SEA"))
    (.seq wspPlus (.seq (strLit "FREIGHT") (.seq wspPlus
      (.seq (.alt (.seq (.group 1 alpha3) wspPlus) .eps) amountGroup2))))

/-- Value of a digit string (most significant first); `[]` gives `0`. -/
def digitsToNat (ds : List Char) : Nat :=
  ds.foldl (fun a c => 10 * a + (c.toNat - 48)) 0

/-- Split at the first `'.'`: the characters before it and after it. -/
def intFracSplit : List Char → List Char × List Char
  | [] => ([], [])
  | '.' :: cs => ([], cs)
  | c :: cs => let p := intFracSplit cs; (c :: p.1, p.2)

/-- Rational multiplication, written on the raw numerator/denominator so the
kernel can evaluate it; `qmul_eq` below proves it is `ℚ` multiplication. -/
def qmul (a b : ℚ) : ℚ := mkRat (a.num * b.num) (a.den * b.den)

/-- Rational addition, kernel-evaluable; `qadd_eq` proves it is `ℚ`
addition. -/
def qadd (a b : ℚ) : ℚ :=
  mkRat (a.num * (b.den : Int) + b.num * (a.den : Int)) (a.den * b.den)

theorem qmul_eq (a b : ℚ) : qmul a b = a * b := by
  unfold qmul
  rw [Rat.mkRat_eq_divInt]
  conv_rhs => rw [← Rat.num_divInt_den a, ← Rat.num_divInt_den b]
  rw [Rat.divInt_mul_divInt']
  norm_cast

theorem qadd_eq (a b : ℚ) : qadd a b = a + b := by
  unfold qadd
  rw [Rat.mkRat_eq_divInt]
  conv_rhs => rw [← Rat.num_divInt_den a, ← Rat.num_divInt_den b]
  rw [Rat.divInt_add_divInt _ _ (by exact_mod_cast a.den_nz)
    (by exact_mod_cast b.den_nz)]
  norm_cast

/-- Python `float` on a comma-stripped numeric token: succeeds exactly on a
string of digits with at most one dot and at least one digit (the tokens the
source feeds it contain only `[\d.]` after `replace(",","")`), yielding its
exact decimal value `int + frac / 10^k`.  `none` models the `ValueError` the
source would raise. -/
def pyFloat? (s : List Char) : Option ℚ :=
  if s.all (fun c => c.isDigit || c = '.') && s.count '.' ≤ 1 && s.any Char.isDigit
  then
    let p := intFracSplit s
    some (qadd (mkRat (digitsToNat p.1) 1)
               (mkRat (digitsToNat p.2) (10 ^ p.2.length)))
  else none

/-- Python `str.strip()` over the whitespace class `wsp`. -/
def pyStrip (s : List Char) : List Char :=
  (((s.dropWhile wsp).reverse).dropWhile wsp).reverse

/-- Helper `_f` of the source: strip thousands commas and whitespace, then convert
with `float`; `none` models the exception on a malformed token. -/
def _f (s : List Char) : Option ℚ :=
  pyFloat? (pyStrip (s.filter (fun c => c ≠ ',')))

/-- Lower-case a token (`str.lower`, ASCII). -/
def lowerStr (s : List Char) : List Char := s.map Char.toLower

/-- Helper `_to_kg` of the source: keep the value when the unit starts with "kg"
(case-insensitively), otherwise treat it as pounds × 0.453592. -/
def _to_kg (val : ℚ) (unit : List Char) : ℚ :=
  if ['k', 'g'].isPrefixOf (lowerStr unit) then val
  else qmul val (mkRat 453592 1000000)

/-- The mass-unit test `c_unit.lower() in ("kg", "kgs", "lb")`. -/
def isMassUnit (u : List Char) : Bool :=
  lowerStr u = ['k', 'g'] || lowerStr u = ['k', 'g', 's'] || lowerStr u = ['l', 'b']

/-- Substitution `re.sub(r"\s+", " ", ·)`: collapse each maximal whitespace run to one
space (the flag records whether the previous character was whitespace). -/
def collapseAux : Bool → List Char → List Char
  | _, [] => []
  | prevWs, c :: cs =>
    if wsp c then
      if prevWs then collapseAux true cs else ' ' :: collapseAux true cs
    else c :: collapseAux false cs

/-- Whitespace-run collapse used for the shipper name. -/
def collapseWs (l : List Char) : List Char := collapseAux false l

/-- Does `\b(CAD|CDN|C\$)\b` match at this position?  The position's previous
character is a word character iff `prevW`; `C` is a word character, so the
leading boundary needs `prevW = false`.  After `CAD`/`CDN` the boundary needs
a non-word character or the end; after `C$` (with `$` a non-word character)
the trailing `\b` needs a following word character. -/
def currencyHere (prevW : Bool) (l : List Char) : Bool :=
  if prevW then false
  else
    match l with
    | c :: a :: d :: rest =>
      (c.toLower = 'c' && a.toLower = 'a' && d.toLower = 'd' &&
        (match rest with | [] => true | x :: _ => !wordChar x)) ||
      (c.toLower = 'c' && a.toLower = 'd' && d.toLower = 'n' &&
        (match rest with | [] => true | x :: _ => !wordChar x)) ||
      (c.toLower = 'c' && a = '$' && wordChar d)
    | _ => false

/-- Scan for `CURRENCY_ANY` (`\b(CAD|CDN|C\$)\b`) anywhere in the text. -/
def hasCurrencyAnyAux : Bool → List Char → Bool
  | _, [] => false
  | prevW, c :: cs =>
    currencyHere prevW (c :: cs) || hasCurrencyAnyAux (wordChar c) cs

/-- Scan `CURRENCY_ANY.search(full)` as a Boolean. -/
def hasCurrencyAny (l : List Char) : Bool := hasCurrencyAnyAux false l

/-- The invoice-date step: first `INVOICE_DATE` match, group 1, stripped. -/
def invDateOf (text : List Char) : Option (List Char) :=
  ((reSearch INVOICE_DATE text).bind (fun caps => grp caps 1)).map pyStrip

/-- The currency code captured next to the subtotal line, when present. -/
def subCode (text : List Char) : Option (List Char) :=
  (reSearch SUBTOTAL_PAT text).bind (fun caps => grp caps 1)

/-- The currency code captured on the air-freight line, when present. -/
def airCode (text : List Char) : Option (List Char) :=
  (reSearch AIR_FRT_PAT text).bind (fun caps => grp caps 1)

/-- The currency code captured on the ocean/sea-freight line, when present. -/
def oceanCode (text : List Char) : Option (List Char) :=
  (reSearch OCEAN_FRT_PAT text).bind (fun caps => grp caps 1)

/-- The currency step of `parse_pdf_bytes`: subtotal code, else air-freight
code, else ocean-freight code, else "CAD" when a bare CAD/CDN/C$ token
occurs, else the default "USD". -/
def currencyOf (text : List Char) : List Char :=
  match subCode text with
  | some c => c
  | none =>
    match airCode text with
    | some c => c
    | none =>
      match oceanCode text with
      | some c => c
      | none => if hasCurrencyAny text then "CAD".data else "USD".data

/-- The shipper step: text between SHIPPER and CONSIGNEE, stripped, with
whitespace runs collapsed. -/
def shipperOf (text : List Char) : Option (List Char) :=
  ((reSearch SHIPPER_PAT text).bind (fun caps => grp caps 1)).map
    (fun s => collapseWs (pyStrip s))

/-- Fallback scan `KG_PAT` (source line 114–115): `some none` when the
pattern is absent, `none` (exception) when its numeric token is malformed. -/
def kgFallback (text : List Char) : Option (Option ℚ) :=
  match reSearch KG_PAT text with
  | some caps => ((grp caps 1).bind _f).map some
  | none => some none

/-- Fallback scan `M3_PAT` (source line 116–117). -/
def m3Fallback (text : List Char) : Option (Option ℚ) :=
  match reSearch M3_PAT text with
  | some caps => ((grp caps 1).bind _f).map some
  | none => some none

/-- Fallback scan `CTN_PAT` (source line 118–119); `int` on `\d+` digits
cannot fail. -/
def ctnFallback (text : List Char) : Option (Option Nat) :=
  match reSearch CTN_PAT text with
  | some caps => (grp caps 1).map (fun d => some (digitsToNat d))
  | none => some none

/-- Result of the detail-row step: the five values
(`w_kg`, `v_m3`, `c_kg`, `c_cbm`, `packs`) as the source leaves them. -/
structure DetailRes where
  w_kg : Option ℚ
  v_m3 : Option ℚ
  c_kg : Option ℚ
  c_cbm : Option ℚ
  packs : Option Nat
deriving DecidableEq, Repr

/-- The detail-row step (source lines 102–119): when `ROW_PAT` matches, all
four fields come from that match, the chargeable value routed by its unit;
otherwise three independent fallback scans (`KG_PAT`, `M3_PAT`, `CTN_PAT`)
fill weight, volume and packages, leaving both chargeable fields `None`.
The outer `Option` is the exception monad: `none` when a `float` conversion
raises. -/
def detailRow (text : List Char) : Option DetailRes :=
  match reSearch ROW_PAT text with
  | some caps => do
    let wv ← (grp caps 1).bind _f
    let wu ← grp caps 2
    let vv ← (grp caps 3).bind _f
    let cv ← (grp caps 5).bind _f
    let cu ← grp caps 6
    let pk ← grp caps 7
    if isMassUnit cu then
      pure ⟨some (_to_kg wv wu), some vv, some (_to_kg cv cu), none,
            some (digitsToNat pk)⟩
    else
      pure ⟨some (_to_kg wv wu), some vv, none, some cv,
            some (digitsToNat pk)⟩
  | none => do
    let w ← kgFallback text
    let v ← m3Fallback text
    let pk ← ctnFallback text
    pure ⟨w, v, none, none, pk⟩

/-- The CHARGEABLE-line override (source lines 121–129): when the line is
found, a mass unit routes the value to `Chargeable_KG` (normalised) and
clears `Chargeable_CBM`, any other unit routes it to `Chargeable_CBM` and
clears `Chargeable_KG`; otherwise the detail-row pair passes through. -/
def chargeableStep (text : List Char) (ck cc : Option ℚ) :
    Option (Option ℚ × Option ℚ) :=
  match reSearch CHARGEABLE_LINE text with
  | some caps => do
    let v ← (grp caps 1).bind _f
    let u ← grp caps 2
    if isMassUnit u then pure (some (_to_kg v (lowerStr u)), none)
    else pure (none, some v)
  | none => some (ck, cc)

/-- The subtotal step: numeric group 2 of `SUBTOTAL_PAT`, when it matches. -/
def subtotalStep (text : List Char) : Option (Option ℚ) :=
  match reSearch SUBTOTAL_PAT text with
  | some caps => ((grp caps 2).bind _f).map some
  | none => some none

/-- The freight step: try `AIR_FRT_PAT` then `OCEAN_FRT_PAT`; the first
match sets the mode ("Air" / "Ocean") and the amount; otherwise both stay
`None`. -/
def freightStep (text : List Char) :
    Option (Option (List Char) × Option ℚ) :=
  match reSearch AIR_FRT_PAT text with
  | some caps =>
    ((grp caps 2).bind _f).map (fun q => (some "Air".data, some q))
  | none =>
    match reSearch OCEAN_FRT_PAT text with
    | some caps =>
      ((grp caps 2).bind _f).map (fun q => (some "Ocean".data, some q))
    | none => some (none, none)

/-- All domain fields extracted inside the `try` block of
`parse_pdf_bytes`; `none` when any step raises. -/
structure Extracted where
  inv_date : Option (List Char)
  currency : List Char
  shipper : Option (List Char)
  w_kg : Option ℚ
  v_m3 : Option ℚ
  c_kg : Option ℚ
  c_cbm : Option ℚ
  packs : Option Nat
  subtotal : Option ℚ
  mode : Option (List Char)
  amount : Option ℚ
deriving DecidableEq, Repr

/-- The body of the `try` block of `parse_pdf_bytes`, steps in source
order. -/
def parseFields (text : List Char) : Option Extracted := do
  let d ← detailRow text
  let chg ← chargeableStep text d.c_kg d.c_cbm
  let st ← subtotalStep text
  let fr ← freightStep text
  pure ⟨invDateOf text, currencyOf text, shipperOf text,
        d.w_kg, d.v_m3, chg.1, chg.2, d.packs, st, fr.1, fr.2⟩

/-- The output record: the 13 fields of `HEADERS`, in order.  `Timestamp`
and `Filename` are always populated; every other field is optional. -/
structure Row where
  Timestamp : Nat
  Filename : List Char
  Invoice_Date : Option (List Char)
  Currency : Option (List Char)
  Shipper : Option (List Char)
  Weight_KG : Option ℚ
  Volume_M3 : Option ℚ
  Chargeable_KG : Option ℚ
  Chargeable_CBM : Option ℚ
  Packages : Option Nat
  Subtotal : Option ℚ
  Freight_Mode : Option (List Char)
  Freight_Amount : Option ℚ
deriving DecidableEq, Repr

/-- The `except Exception` row: only Timestamp and Filename populated. -/
def minimalRow (now : Nat) (fn : List Char) : Row :=
  ⟨now, fn, none, none, none, none, none, none, none, none, none, none, none⟩

/-- Function `parse_pdf_bytes`: assemble the full record from the extracted fields,
degrading to the minimal row when any step of the `try` block raises. -/
def parse_pdf_bytes (now : Nat) (fn : List Char) (text : List Char) : Row :=
  match parseFields text with
  | some f =>
    ⟨now, fn, f.inv_date, some f.currency, f.shipper, f.w_kg, f.v_m3,
     f.c_kg, f.c_cbm, f.packs, f.subtotal, f.mode, f.amount⟩
  | none => minimalRow now fn

/-- Relation: `l` ends with `s` (`s` is a suffix). -/
def isTail (s l : List Char) : Prop := ∃ a, l = a ++ s

/-- Relation: `s` occurs verbatim inside `l` as a contiguous segment. -/
def containsSeg (s l : List Char) : Prop := ∃ a b, l = a ++ s ++ b

theorem isTail_trans {s t l : List Char} (h1 : isTail s t) (h2 : isTail t l) :
    isTail s l := by
  obtain ⟨a, ha⟩ := h1
  obtain ⟨b, hb⟩ := h2
  exact ⟨b ++ a, by simp [hb, ha]⟩

theorem containsSeg_of_isTail {s t l : List Char} (h1 : containsSeg s t)
    (h2 : isTail t l) : containsSeg s l := by
  obtain ⟨a, b, hab⟩ := h1
  obtain ⟨c, hc⟩ := h2
  exact ⟨c ++ a, b, by simp [hc, hab]⟩

theorem containsSeg_trans {s t l : List Char} (h1 : containsSeg s t)
    (h2 : containsSeg t l) : containsSeg s l := by
  obtain ⟨a, b, hab⟩ := h1
  obtain ⟨c, d, hcd⟩ := h2
  exact ⟨c ++ a, b ++ d, by simp [hcd, hab]⟩

theorem containsSeg_cons {s l : List Char} (c : Char) (h : containsSeg s l) :
    containsSeg s (c :: l) := by
  obtain ⟨a, b, hab⟩ := h
  exact ⟨c :: a, b, by simp [hab]⟩

theorem repRemainders_tail {p : Char → Bool} {lo : Nat} {hi : Option Nat}
    {lz : Bool} {l rest : List Char}
    (h : rest ∈ repRemainders p lo hi lz l) : isTail rest l := by
  unfold repRemainders at h
  cases hi with
  | none =>
    simp only at h
    split at h
    · simp at h
    · simp only [List.mem_map] at h
      obtain ⟨k, -, hk⟩ := h
      exact ⟨l.take k, by rw [← hk]; exact (List.take_append_drop k l).symm⟩
  | some hb =>
    simp only at h
    split at h
    · simp at h
    · simp only [List.mem_map] at h
      obtain ⟨k, -, hk⟩ := h
      exact ⟨l.take k, by rw [← hk]; exact (List.take_append_drop k l).symm⟩

/-- Every way a pattern matches consumes a prefix: the remainder is a tail
of the input. -/
theorem reMatch_tail : ∀ (r : RE) (l : List Char) (caps : Caps)
    (rest : List Char) (caps' : Caps),
    (rest, caps') ∈ reMatch r l caps → isTail rest l := by
  intro r
  induction r with
  | eps =>
    intro l caps rest caps' h
    simp only [reMatch, List.mem_singleton, Prod.mk.injEq] at h
    exact ⟨[], by simp [h.1]⟩
  | lit c =>
    intro l caps rest caps' h
    cases l with
    | nil => simp [reMatch] at h
    | cons d cs =>
      by_cases hc : d.toLower = c.toLower
      · simp only [reMatch, hc, if_pos, List.mem_singleton, Prod.mk.injEq] at h
        exact ⟨[d], by simp [h.1]⟩
      · simp [reMatch, hc] at h
  | cls p =>
    intro l caps rest caps' h
    cases l with
    | nil => simp [reMatch] at h
    | cons d cs =>
      by_cases hc : p d = true
      · simp only [reMatch, hc, if_pos, List.mem_singleton, Prod.mk.injEq] at h
        exact ⟨[d], by simp [h.1]⟩
      · simp [reMatch, hc] at h
  | seq a b iha ihb =>
    intro l caps rest caps' h
    simp only [reMatch, List.mem_flatMap] at h
    obtain ⟨rc, hrc, hmem⟩ := h
    exact isTail_trans (ihb rc.1 rc.2 rest caps' hmem) (iha l caps rc.1 rc.2 hrc)
  | alt a b iha ihb =>
    intro l caps rest caps' h
    simp only [reMatch, List.mem_append] at h
    cases h with
    | inl h => exact iha l caps rest caps' h
    | inr h => exact ihb l caps rest caps' h
  | rep p lo hi lz =>
    intro l caps rest caps' h
    simp only [reMatch, List.mem_map] at h
    obtain ⟨rs, hrs, heq⟩ := h
    have h1 : rs = rest := congrArg Prod.fst heq
    exact h1 ▸ repRemainders_tail hrs
  | group n r ih =>
    intro l caps rest caps' h
    simp only [reMatch, List.mem_map] at h
    obtain ⟨rc, hrc, heq⟩ := h
    have h1 : rc.1 = rest := congrArg Prod.fst heq
    exact h1 ▸ ih l caps rc.1 rc.2 hrc

/-- Every capture produced by a match is either inherited from the incoming
environment or a verbatim segment of the input. -/
theorem reMatch_caps : ∀ (r : RE) (l : List Char) (caps : Caps)
    (rest : List Char) (caps' : Caps),
    (rest, caps') ∈ reMatch r l caps →
    ∀ pr ∈ caps', pr ∈ caps ∨ containsSeg pr.2 l := by
  intro r
  induction r with
  | eps =>
    intro l caps rest caps' h pr hpr
    simp only [reMatch, List.mem_singleton, Prod.mk.injEq] at h
    exact Or.inl (h.2 ▸ hpr)
  | lit c =>
    intro l caps rest caps' h pr hpr
    cases l with
    | nil => simp [reMatch] at h
    | cons d cs =>
      by_cases hc : d.toLower = c.toLower
      · simp only [reMatch, hc, if_pos, List.mem_singleton, Prod.mk.injEq] at h
        exact Or.inl (h.2 ▸ hpr)
      · simp [reMatch, hc] at h
  | cls p =>
    intro l caps rest caps' h pr hpr
    cases l with
    | nil => simp [reMatch] at h
    | cons d cs =>
      by_cases hc : p d = true
      · simp only [reMatch, hc, if_pos, List.mem_singleton, Prod.mk.injEq] at h
        exact Or.inl (h.2 ▸ hpr)
      · simp [reMatch, hc] at h
  | seq a b iha ihb =>
    intro l caps rest caps' h pr hpr
    simp only [reMatch, List.mem_flatMap] at h
    obtain ⟨rc, hrc, hmem⟩ := h
    cases ihb rc.1 rc.2 rest caps' hmem pr hpr with
    | inl hin =>
      cases iha l caps rc.1 rc.2 hrc pr hin with
      | inl h2 => exact Or.inl h2
      | inr h2 => exact Or.inr h2
    | inr hseg =>
      exact Or.inr (containsSeg_of_isTail hseg (reMatch_tail a l caps rc.1 rc.2 hrc))
  | alt a b iha ihb =>
    intro l caps rest caps' h pr hpr
    simp only [reMatch, List.mem_append] at h
    cases h with
    | inl h => exact iha l caps rest caps' h pr hpr
    | inr h => exact ihb l caps rest caps' h pr hpr
  | rep p lo hi lz =>
    intro l caps rest caps' h pr hpr
    simp only [reMatch, List.mem_map] at h
    obtain ⟨rs, -, heq⟩ := h
    have h2 : caps = caps' := congrArg Prod.snd heq
    exact Or.inl (h2 ▸ hpr)
  | group n r ih =>
    intro l caps rest caps' h pr hpr
    simp only [reMatch, List.mem_map] at h
    obtain ⟨rc, hrc, heq⟩ := h
    have h2 : ((n, l.take (l.length - rc.1.length)) :: rc.2) = caps' :=
      congrArg Prod.snd heq
    rw [← h2] at hpr
    cases List.mem_cons.mp hpr with
    | inl hhd =>
      refine Or.inr ?_
      rw [hhd]
      exact ⟨[], l.drop (l.length - rc.1.length), by simp⟩
    | inr htl => exact ih l caps rc.1 rc.2 hrc pr htl

/-- Any capture returned by `reSearch` is a verbatim segment of the text. -/
theorem reSearch_caps : ∀ (r : RE) (text : List Char) (caps : Caps),
    reSearch r text = some caps → ∀ pr ∈ caps, containsSeg pr.2 text := by
  intro r text
  induction text with
  | nil =>
    intro caps h pr hpr
    unfold reSearch at h
    cases hm : reMatch r [] [] with
    | nil => rw [hm] at h; simp at h
    | cons rc t =>
      rw [hm] at h
      simp only [Option.some.injEq] at h
      have hmem : (rc.1, rc.2) ∈ reMatch r [] [] := by rw [hm]; simp
      cases reMatch_caps r [] [] rc.1 rc.2 hmem pr (h ▸ hpr) with
      | inl h2 => simp at h2
      | inr h2 => exact h2
  | cons c cs ih =>
    intro caps h pr hpr
    unfold reSearch at h
    cases hm : reMatch r (c :: cs) [] with
    | nil =>
      rw [hm] at h
      exact containsSeg_cons c (ih caps h pr hpr)
    | cons rc t =>
      rw [hm] at h
      simp only [Option.some.injEq] at h
      have hmem : (rc.1, rc.2) ∈ reMatch r (c :: cs) [] := by rw [hm]; simp
      cases reMatch_caps r (c :: cs) [] rc.1 rc.2 hmem pr (h ▸ hpr) with
      | inl h2 => simp at h2
      | inr h2 => exact h2

/-- A successful group lookup comes from the capture environment. -/
theorem grp_mem {caps : Caps} {n : Nat} {s : List Char}
    (h : grp caps n = some s) : (n, s) ∈ caps := by
  unfold grp at h
  cases hf : caps.find? (fun pr => pr.1 == n) with
  | none => rw [hf] at h; simp at h
  | some pr =>
    rw [hf] at h
    simp at h
    have hmem := List.mem_of_find?_eq_some hf
    have hpred : (pr.1 == n) = true :=
      List.find?_some (p := fun q : Nat × List Char => q.1 == n) hf
    have h1 : pr.1 = n := by simpa using hpred
    have : pr = (n, s) := by rw [← h1, ← h]
    exact this ▸ hmem

/-- The text between the start and the first `'.'`-free split re-assembles:
a list always starts with a prefix dropped by `dropWhile`. -/
theorem dropWhile_isTail (p : Char → Bool) (l : List Char) :
    isTail (l.dropWhile p) l :=
  ⟨l.takeWhile p, (List.takeWhile_append_dropWhile (p := p) (l := l)).symm⟩

/-- Stripping returns a verbatim segment of its argument. -/
theorem pyStrip_seg (s : List Char) : containsSeg (pyStrip s) s := by
  unfold pyStrip
  obtain ⟨a, ha⟩ := dropWhile_isTail wsp s
  obtain ⟨b, hb⟩ := dropWhile_isTail wsp (s.dropWhile wsp).reverse
  refine ⟨a, b.reverse, ?_⟩
  have h2 : s.dropWhile wsp =
      (((s.dropWhile wsp).reverse.dropWhile wsp).reverse) ++ b.reverse := by
    have := congrArg List.reverse hb
    simpa using this
  conv_lhs => rw [ha, h2]
  exact (List.append_assoc a _ b.reverse).symm

/-- A filtered list (comma removal) is built only from characters of the
original; what matters below: `_f` applied to a capture only inspects the
capture. (No lemma needed; recorded for reading.) -/
theorem _f_none_of_no_digit (s : List Char)
    (h : (pyStrip (s.filter (fun c => c ≠ ','))).any Char.isDigit = false) :
    _f s = none := by
  unfold _f pyFloat?
  split
  · next hc =>
    rw [h] at hc
    simp at hc
  · rfl

/-- Destructuring a successful `parseFields` run into its steps. -/
theorem parseFields_eq {text : List Char} {f : Extracted}
    (h : parseFields text = some f) :
    ∃ d chg st fr, detailRow text = some d ∧
      chargeableStep text d.c_kg d.c_cbm = some chg ∧
      subtotalStep text = some st ∧ freightStep text = some fr ∧
      f = ⟨invDateOf text, currencyOf text, shipperOf text, d.w_kg, d.v_m3,
           chg.1, chg.2, d.packs, st, fr.1, fr.2⟩ := by
  unfold parseFields at h
  simp only [Option.bind_eq_bind, Option.bind_eq_some, Option.pure_def,
    Option.some.injEq] at h
  obtain ⟨d, hd, chg, hc, st, hs, fr, hfr, hf⟩ := h
  exact ⟨d, chg, st, fr, hd, hc, hs, hfr, hf.symm⟩

/-- When every step of `parseFields` succeeds it returns `some`. -/
theorem parseFields_some {text : List Char} {d : DetailRes}
    {chg : Option ℚ × Option ℚ} {st : Option ℚ}
    {fr : Option (List Char) × Option ℚ}
    (hd : detailRow text = some d)
    (hc : chargeableStep text d.c_kg d.c_cbm = some chg)
    (hs : subtotalStep text = some st)
    (hfr : freightStep text = some fr) :
    parseFields text =
      some ⟨invDateOf text, currencyOf text, shipperOf text, d.w_kg, d.v_m3,
            chg.1, chg.2, d.packs, st, fr.1, fr.2⟩ := by
  unfold parseFields
  rw [hd]
  show (do
    let chg ← chargeableStep text d.c_kg d.c_cbm
    let st ← subtotalStep text
    let fr ← freightStep text
    pure (⟨invDateOf text, currencyOf text, shipperOf text, d.w_kg, d.v_m3,
          chg.1, chg.2, d.packs, st, fr.1, fr.2⟩ : Extracted)) = _
  rw [hc]
  show (do
    let st ← subtotalStep text
    let fr ← freightStep text
    pure (⟨invDateOf text, currencyOf text, shipperOf text, d.w_kg, d.v_m3,
          chg.1, chg.2, d.packs, st, fr.1, fr.2⟩ : Extracted)) = _
  rw [hs, hfr]
  rfl

/-- The detail-row step never sets both chargeable fields. -/
theorem detailRow_excl {text : List Char} {d : DetailRes}
    (h : detailRow text = some d) : d.c_kg = none ∨ d.c_cbm = none := by
  unfold detailRow at h
  cases hs : reSearch ROW_PAT text with
  | some caps =>
    rw [hs] at h
    simp only [Option.bind_eq_bind, Option.bind_eq_some, Option.pure_def,
      Option.some.injEq] at h
    obtain ⟨wv, -, wu, -, vv, -, cv, -, cu, -, pk, -, hif⟩ := h
    split at hif <;> injection hif with hd2 <;> rw [← hd2]
    · exact Or.inr rfl
    · exact Or.inl rfl
  | none =>
    rw [hs] at h
    simp only [Option.bind_eq_bind, Option.bind_eq_some, Option.pure_def,
      Option.some.injEq] at h
    obtain ⟨w, -, v, -, pk, -, hpure⟩ := h
    rw [← hpure]
    exact Or.inl rfl

/-- The CHARGEABLE override never sets both chargeable fields, and passes
an exclusive pair through unchanged. -/
theorem chargeableStep_excl {text : List Char} {a b : Option ℚ}
    {out : Option ℚ × Option ℚ}
    (h : chargeableStep text a b = some out)
    (hab : a = none ∨ b = none) : out.1 = none ∨ out.2 = none := by
  unfold chargeableStep at h
  cases hs : reSearch CHARGEABLE_LINE text with
  | none =>
    rw [hs] at h
    simp only [Option.some.injEq] at h
    rw [← h]
    exact hab
  | some caps =>
    rw [hs] at h
    simp only [Option.bind_eq_bind, Option.bind_eq_some, Option.pure_def,
      Option.some.injEq] at h
    obtain ⟨v, -, u, -, hif⟩ := h
    split at hif <;> injection hif with hd2 <;> rw [← hd2]
    · exact Or.inr rfl
    · exact Or.inl rfl

/-- C1: for every input the extractor returns the fixed 13-field record
type `Row` (the schema is the structure itself) and is a total function —
the model of "never raises"; Timestamp and Filename are always populated
from the call, and when any internal error occurs during extraction
(`parseFields text = none`, the model of the `try` body raising) the
returned record is the minimal row: only Timestamp and Filename populated,
every other field null. -/
theorem C1_total_never_raises (now : Nat) (fn text : List Char) :
    (parse_pdf_bytes now fn text).Timestamp = now ∧
    (parse_pdf_bytes now fn text).Filename = fn ∧
    (parseFields text = none →
      parse_pdf_bytes now fn text = minimalRow now fn) := by
  unfold parse_pdf_bytes
  cases h : parseFields text with
  | none => exact ⟨rfl, rfl, fun _ => rfl⟩
  | some f =>
    exact ⟨rfl, rfl, fun hc => Option.noConfusion hc⟩

/-- Witness for C1 at a concrete failing input: the token `..` matched by
`KG_PAT` is malformed, extraction degrades to the minimal row. -/
theorem C1_witness :
    parseFields (".. KG".data) = none ∧
    parse_pdf_bytes 0 [] (".. KG".data) = minimalRow 0 [] :=
  ⟨by decide, (C1_total_never_raises 0 [] (".. KG".data)).2.2 (by decide)⟩

/-- C2: in every returned record, Chargeable_KG and Chargeable_CBM are never
both non-null. -/
theorem C2_chargeable_exclusive (now : Nat) (fn text : List Char) :
    (parse_pdf_bytes now fn text).Chargeable_KG = none ∨
    (parse_pdf_bytes now fn text).Chargeable_CBM = none := by
  unfold parse_pdf_bytes
  cases h : parseFields text with
  | none => exact Or.inl rfl
  | some f =>
    obtain ⟨d, chg, st, fr, hd, hc, -, -, hf⟩ := parseFields_eq h
    have hx := chargeableStep_excl hc (detailRow_excl hd)
    rw [hf]
    exact hx

/-- C3 is refuted at a concrete input: in
`"INVOICE DATE 1 JAN 2020 .. KG"` the numeric token `..` matched by
`KG_PAT` is malformed; the claim says only that field fails while every
other field is still extracted normally, but the invoice date — which the
date sub-extractor does capture on this very text — comes back null in the
returned record. -/
theorem C3_counterexample :
    invDateOf ("INVOICE DATE 1 JAN 2020 .. KG".data)
      = some ("1 JAN 2020".data) ∧
    (parse_pdf_bytes 0 [] ("INVOICE DATE 1 JAN 2020 .. KG".data)).Invoice_Date
      = none ∧
    (parse_pdf_bytes 0 [] ("INVOICE DATE 1 JAN 2020 .. KG".data))
      = minimalRow 0 [] := by
  refine ⟨by decide, ?_, by decide⟩
  decide

/-- C3 as amended: a malformed numeric token in any fallible step — the
detail-row/fallback scans, the CHARGEABLE override, the subtotal scan or
the freight scan — propagates to the outermost handler: the whole record
degrades to the minimal Timestamp/Filename-only row; no other field
survives, and no exception escapes (the function is total).  (The
CHARGEABLE condition quantifies over the incoming pair because the step
receives the detail-row result; a malformed token fails it for every
input.) -/
theorem C3_amended_malformed_aborts_record (now : Nat) (fn text : List Char)
    (h : detailRow text = none ∨
         (∀ a b, chargeableStep text a b = none) ∨
         subtotalStep text = none ∨ freightStep text = none) :
    parse_pdf_bytes now fn text = minimalRow now fn := by
  have hn : parseFields text = none := by
    unfold parseFields
    cases hd : detailRow text with
    | none => rfl
    | some d =>
      rcases h with h | h | h | h
      · rw [hd] at h
        exact Option.noConfusion h
      · show (do
          let chg ← chargeableStep text d.c_kg d.c_cbm
          let st ← subtotalStep text
          let fr ← freightStep text
          pure (⟨invDateOf text, currencyOf text, shipperOf text, d.w_kg,
                d.v_m3, chg.1, chg.2, d.packs, st, fr.1, fr.2⟩ :
            Extracted)) = none
        rw [h d.c_kg d.c_cbm]
        rfl
      · show (do
          let chg ← chargeableStep text d.c_kg d.c_cbm
          let st ← subtotalStep text
          let fr ← freightStep text
          pure (⟨invDateOf text, currencyOf text, shipperOf text, d.w_kg,
                d.v_m3, chg.1, chg.2, d.packs, st, fr.1, fr.2⟩ :
            Extracted)) = none
        cases hc : chargeableStep text d.c_kg d.c_cbm with
        | none => rfl
        | some chg =>
          show (do
            let st ← subtotalStep text
            let fr ← freightStep text
            pure (⟨invDateOf text, currencyOf text, shipperOf text, d.w_kg,
                  d.v_m3, chg.1, chg.2, d.packs, st, fr.1, fr.2⟩ :
              Extracted)) = none
          rw [h]
          rfl
      · show (do
          let chg ← chargeableStep text d.c_kg d.c_cbm
          let st ← subtotalStep text
          let fr ← freightStep text
          pure (⟨invDateOf text, currencyOf text, shipperOf text, d.w_kg,
                d.v_m3, chg.1, chg.2, d.packs, st, fr.1, fr.2⟩ :
            Extracted)) = none
        cases hc : chargeableStep text d.c_kg d.c_cbm with
        | none => rfl
        | some chg =>
          show (do
            let st ← subtotalStep text
            let fr ← freightStep text
            pure (⟨invDateOf text, currencyOf text, shipperOf text, d.w_kg,
                  d.v_m3, chg.1, chg.2, d.packs, st, fr.1, fr.2⟩ :
              Extracted)) = none
          cases hs : subtotalStep text with
          | none => rfl
          | some st =>
            show (do
              let fr ← freightStep text
              pure (⟨invDateOf text, currencyOf text, shipperOf text, d.w_kg,
                    d.v_m3, chg.1, chg.2, d.packs, st, fr.1, fr.2⟩ :
                Extracted)) = none
            rw [h]
            rfl
  unfold parse_pdf_bytes
  rw [hn]

/-- Witness for the amended C3, exercising three failure sites: a malformed
fallback weight token, a malformed CHARGEABLE-override token on a text
whose detail row itself succeeds, and a malformed SUBTOTAL token. -/
theorem C3_witness :
    detailRow ("INVOICE DATE 1 JAN 2020 .. KG".data) = none ∧
    parse_pdf_bytes 7 ("f".data) ("INVOICE DATE 1 JAN 2020 .. KG".data)
      = minimalRow 7 ("f".data) ∧
    detailRow ("1 KG 2 M3 3 KG 4 CTN CHARGEABLE ,, CBM".data)
      = some ⟨some 1, some 2, some 3, none, some 4⟩ ∧
    parse_pdf_bytes 0 [] ("1 KG 2 M3 3 KG 4 CTN CHARGEABLE ,, CBM".data)
      = minimalRow 0 [] ∧
    subtotalStep ("SUBTOTAL ..".data) = none ∧
    parse_pdf_bytes 0 ("g".data) ("SUBTOTAL ..".data)
      = minimalRow 0 ("g".data) := by
  have hch : ∀ a b,
      chargeableStep ("1 KG 2 M3 3 KG 4 CTN CHARGEABLE ,, CBM".data) a b
        = none := by
    intro a b
    unfold chargeableStep
    rw [show reSearch CHARGEABLE_LINE
        ("1 KG 2 M3 3 KG 4 CTN CHARGEABLE ,, CBM".data)
        = some [(2, "CBM".data), (1, ",,".data)] from by decide]
    show (do
      let v ← (grp [(2, "CBM".data), (1, ",,".data)] 1).bind _f
      let u ← grp [(2, "CBM".data), (1, ",,".data)] 2
      if isMassUnit u then pure (some (_to_kg v (lowerStr u)), none)
      else pure (none, some v)) = none
    decide
  refine ⟨by decide,
    C3_amended_malformed_aborts_record 7 ("f".data) _ (Or.inl (by decide)),
    by decide,
    C3_amended_malformed_aborts_record 0 [] _ (Or.inr (Or.inl hch)),
    by decide,
    C3_amended_malformed_aborts_record 0 ("g".data) _
      (Or.inr (Or.inr (Or.inl (by decide))))⟩

/-- C4: Currency is decided by strict priority with the first success
winning: the code beside SUBTOTAL, else the code on the AIR FREIGHT line,
else the code on the OCEAN/SEA FREIGHT line, else "CAD" when a bare
CAD/CDN/C$ token occurs anywhere (case-insensitively, as the word-bounded
`CURRENCY_ANY` pattern), else the default "USD"; and the returned record
carries exactly this currency whenever extraction succeeds. -/
theorem C4_currency_priority (text : List Char) :
    (∀ c, subCode text = some c → currencyOf text = c) ∧
    (subCode text = none → ∀ c, airCode text = some c → currencyOf text = c) ∧
    (subCode text = none → airCode text = none →
      ∀ c, oceanCode text = some c → currencyOf text = c) ∧
    (subCode text = none → airCode text = none → oceanCode text = none →
      hasCurrencyAny text = true → currencyOf text = "CAD".data) ∧
    (subCode text = none → airCode text = none → oceanCode text = none →
      hasCurrencyAny text = false → currencyOf text = "USD".data) ∧
    (∀ now fn f, parseFields text = some f →
      (parse_pdf_bytes now fn text).Currency = some (currencyOf text)) := by
  refine ⟨?_, ?_, ?_, ?_, ?_, ?_⟩
  · intro c h; simp [currencyOf, h]
  · intro h c h2; simp [currencyOf, h, h2]
  · intro h h2 c h3; simp [currencyOf, h, h2, h3]
  · intro h h2 h3 h4; simp [currencyOf, h, h2, h3, h4]
  · intro h h2 h3 h4; simp [currencyOf, h, h2, h3, h4]
  · intro now fn f hf
    obtain ⟨d, chg, st, fr, -, -, -, -, hfe⟩ := parseFields_eq hf
    unfold parse_pdf_bytes
    rw [hf, hfe]

/-- Witness for C4: a subtotal-adjacent code wins and is returned. -/
theorem C4_witness :
    subCode ("SUBTOTAL CAD 100.00".data) = some ("CAD".data) ∧
    currencyOf ("SUBTOTAL CAD 100.00".data) = "CAD".data :=
  ⟨by decide,
   (C4_currency_priority ("SUBTOTAL CAD 100.00".data)).1 ("CAD".data)
     (by decide)⟩

/-- C9: mass normalisation — a unit starting with "kg" (case-insensitive)
keeps the value, any other mass unit is treated as pounds and multiplied by
0.453592; through the full extractor a combined-row weight of "10 LB"
yields exactly 0.453592 × 10 = 4.53592 in the rational model (the binary
float of the source agrees to within floating-point tolerance), and
"10 KG" yields exactly 10. -/
theorem C9_mass_normalization (v : ℚ) (u : List Char) :
    (['k', 'g'].isPrefixOf (lowerStr u) = true → _to_kg v u = v) ∧
    (['k', 'g'].isPrefixOf (lowerStr u) = false →
      _to_kg v u = v * (453592 / 1000000 : ℚ)) ∧
    (parse_pdf_bytes 0 [] ("10 LB 2 M3 3 KG 5 CTN".data)).Weight_KG
      = some (453592 / 100000 : ℚ) ∧
    (parse_pdf_bytes 0 [] ("10 KG 2 M3 3 KG 5 CTN".data)).Weight_KG
      = some 10 := by
  have hq : (453592 / 100000 : ℚ) = mkRat 453592 100000 := by
    rw [Rat.mkRat_eq_divInt, Rat.divInt_eq_div]
    norm_num
  refine ⟨?_, ?_, by rw [hq]; decide, by decide⟩
  · intro h; simp [_to_kg, h]
  · intro h
    rw [_to_kg, if_neg (by simp [h]), qmul_eq]
    congr 1
    rw [Rat.mkRat_eq_divInt, Rat.divInt_eq_div]
    norm_num

/-- Witness for C9 at the units of the source's unit set. -/
theorem C9_witness :
    ['k', 'g'].isPrefixOf (lowerStr ("LB".data)) = false ∧
    _to_kg 10 ("LB".data) = 10 * (453592 / 1000000 : ℚ) ∧
    ['k', 'g'].isPrefixOf (lowerStr ("KG".data)) = true ∧
    _to_kg 10 ("KG".data) = 10 :=
  ⟨by decide, (C9_mass_normalization 10 ("LB".data)).2.1 (by decide),
   by decide, (C9_mass_normalization 10 ("KG".data)).1 (by decide)⟩

/-- C10: when extraction completes without the top-level error handler
(`parseFields` succeeds) the returned Currency is non-null — the currency
tier always produces a value, "USD" by default; consequently a null
Currency only arises from the degraded minimal row, where every other
domain field is null as well. -/
theorem C10_currency_sentinel (now : Nat) (fn text : List Char) :
    (∀ f, parseFields text = some f →
      (parse_pdf_bytes now fn text).Currency ≠ none) ∧
    ((parse_pdf_bytes now fn text).Currency = none →
      (parse_pdf_bytes now fn text).Invoice_Date = none ∧
      (parse_pdf_bytes now fn text).Shipper = none ∧
      (parse_pdf_bytes now fn text).Weight_KG = none ∧
      (parse_pdf_bytes now fn text).Volume_M3 = none ∧
      (parse_pdf_bytes now fn text).Chargeable_KG = none ∧
      (parse_pdf_bytes now fn text).Chargeable_CBM = none ∧
      (parse_pdf_bytes now fn text).Packages = none ∧
      (parse_pdf_bytes now fn text).Subtotal = none ∧
      (parse_pdf_bytes now fn text).Freight_Mode = none ∧
      (parse_pdf_bytes now fn text).Freight_Amount = none) := by
  unfold parse_pdf_bytes
  cases h : parseFields text with
  | none =>
    exact ⟨fun f hf => Option.noConfusion hf,
      fun _ => ⟨rfl, rfl, rfl, rfl, rfl, rfl, rfl, rfl, rfl, rfl⟩⟩
  | some f =>
    refine ⟨fun g hg => by simp, fun hc => absurd hc (by simp)⟩

/-- Witness for C10: a malformed volume token degrades the record, Currency
comes back null and so does every other domain field. -/
theorem C10_witness :
    (parse_pdf_bytes 0 [] ("1.2.3 M3".data)).Currency = none ∧
    (parse_pdf_bytes 0 [] ("1.2.3 M3".data)).Weight_KG = none ∧
    (parse_pdf_bytes 0 [] ("1.2.3 M3".data)).Volume_M3 = none ∧
    (parse_pdf_bytes 0 [] ("1.2.3 M3".data)).Subtotal = none := by
  have h := (C10_currency_sentinel 0 [] ("1.2.3 M3".data)).2 (by decide)
  exact ⟨by decide, h.2.2.1, h.2.2.2.1, h.2.2.2.2.2.2.2.1⟩

/-- C7: freight is tested "AIR FREIGHT" first, then "OCEAN/SEA FREIGHT"
(each pattern allowing an optional 3-letter code before a two-decimal
amount); the first match sets the mode and amount, both null when neither
matches — and on the text with both lines the Air line wins with 450.00. -/
theorem C7_freight_priority (text : List Char) :
    (∀ caps a q, reSearch AIR_FRT_PAT text = some caps → grp caps 2 = some a →
      _f a = some q → freightStep text = some (some ("Air".data), some q)) ∧
    (reSearch AIR_FRT_PAT text = none →
      ∀ caps a q, reSearch OCEAN_FRT_PAT text = some caps →
        grp caps 2 = some a → _f a = some q →
        freightStep text = some (some ("Ocean".data), some q)) ∧
    (reSearch AIR_FRT_PAT text = none → reSearch OCEAN_FRT_PAT text = none →
      freightStep text = some (none, none)) ∧
    (parse_pdf_bytes 0 []
      ("AIR FREIGHT USD 450.00\nOCEAN FREIGHT USD 900.00".data)).Freight_Mode
      = some ("Air".data) ∧
    (parse_pdf_bytes 0 []
      ("AIR FREIGHT USD 450.00\nOCEAN FREIGHT USD 900.00".data)).Freight_Amount
      = some 450 := by
  refine ⟨?_, ?_, ?_, by decide, by decide⟩
  · intro caps a q h1 h2 h3
    unfold freightStep
    rw [h1]
    simp [h2, h3]
  · intro h0 caps a q h1 h2 h3
    unfold freightStep
    rw [h0, h1]
    simp [h2, h3]
  · intro h0 h1
    unfold freightStep
    rw [h0, h1]

/-- Witness for C7 at a concrete air-freight line. -/
theorem C7_witness :
    freightStep ("AIR FREIGHT 1.00".data) = some (some ("Air".data), some 1) :=
  (C7_freight_priority ("AIR FREIGHT 1.00".data)).1 [(2, "1.00".data)]
    ("1.00".data) 1 (by decide) (by decide) (by decide)

/-- C6: a standalone "CHARGEABLE value unit" line unconditionally overrides
the detail-row chargeable result, whatever it was: a mass unit routes to
Chargeable_KG (normalised) and nulls Chargeable_CBM, any other unit routes
to Chargeable_CBM and nulls Chargeable_KG; on the combined-row text with
"CHARGEABLE 3.1 CBM" the record carries Chargeable_CBM = 3.1 and a null
Chargeable_KG. -/
theorem C6_chargeable_override (text : List Char) :
    (∀ caps v u q ck cc,
      reSearch CHARGEABLE_LINE text = some caps →
      grp caps 1 = some v → grp caps 2 = some u → _f v = some q →
      chargeableStep text ck cc =
        some (if isMassUnit u then (some (_to_kg q (lowerStr u)), none)
              else (none, some q))) ∧
    (parse_pdf_bytes 0 []
      ("120.5 KG 2.3 M3 130.0 KG 5 CTN CHARGEABLE 3.1 CBM".data)).Chargeable_CBM
      = some (mkRat 31 10) ∧
    (parse_pdf_bytes 0 []
      ("120.5 KG 2.3 M3 130.0 KG 5 CTN CHARGEABLE 3.1 CBM".data)).Chargeable_KG
      = none := by
  refine ⟨?_, by decide, by decide⟩
  intro caps v u q ck cc h1 h2 h3 h4
  unfold chargeableStep
  rw [h1]
  simp only [Option.bind_eq_bind, h2, h4, h3, Option.some_bind]
  split <;> simp [*]

/-- Witness for C6: the override discards a previously set pair. -/
theorem C6_witness :
    chargeableStep ("CHARGEABLE 2 KG".data) (some 99) (some 77) =
      some (if isMassUnit ("KG".data)
            then (some (_to_kg 2 (lowerStr ("KG".data))), none)
            else (none, some 2)) :=
  (C6_chargeable_override ("CHARGEABLE 2 KG".data)).1
    [(2, "KG".data), (1, "2".data)] ("2".data) ("KG".data) 2
    (some 99) (some 77) (by decide) (by decide) (by decide) (by decide)

/-- C5: when the combined detail pattern matches, all four fields come from
that single match — weight normalised to kilograms, volume as-is, the
chargeable value routed by its unit, packages as an integer — and the
claim's concrete text yields exactly the stated record. -/
theorem C5_combined_row (text : List Char) :
    (∀ caps w wu v c cu pk wq vq cq,
      reSearch ROW_PAT text = some caps →
      grp caps 1 = some w → grp caps 2 = some wu → grp caps 3 = some v →
      grp caps 5 = some c → grp caps 6 = some cu → grp caps 7 = some pk →
      _f w = some wq → _f v = some vq → _f c = some cq →
      detailRow text = some ⟨some (_to_kg wq wu), some vq,
        if isMassUnit cu then some (_to_kg cq cu) else none,
        if isMassUnit cu then none else some cq,
        some (digitsToNat pk)⟩) ∧
    parse_pdf_bytes 0 [] ("120.5 KG 2.3 M3 130.0 KG 5 CTN".data) =
      ⟨0, [], none, some ("USD".data), none, some (mkRat 241 2),
       some (mkRat 23 10), some 130, none, some 5, none, none, none⟩ := by
  refine ⟨?_, by decide⟩
  intro caps w wu v c cu pk wq vq cq h1 h2 h3 h5 h6 h7 hpk hw hv hc
  unfold detailRow
  rw [h1]
  simp only [Option.bind_eq_bind, h2, h3, h5, h6, h7, hpk, hw, hv, hc,
    Option.some_bind]
  split <;> simp [*]

/-- Witness for C5 at a concrete combined row with a volume-unit
chargeable. -/
theorem C5_witness :
    detailRow ("10 LB 2 M3 3 CBM 4 CTN".data) =
      some ⟨some (_to_kg 10 ("LB".data)), some 2,
        if isMassUnit ("CBM".data) then some (_to_kg 3 ("CBM".data)) else none,
        if isMassUnit ("CBM".data) then none else some 3,
        some (digitsToNat ("4".data))⟩ :=
  (C5_combined_row ("10 LB 2 M3 3 CBM 4 CTN".data)).1
    [(7, "4".data), (6, "CBM".data), (5, "3".data), (4, "M3".data),
     (3, "2".data), (2, "LB".data), (1, "10".data)]
    ("10".data) ("LB".data) ("2".data) ("3".data) ("CBM".data) ("4".data)
    10 2 3 (by decide) (by decide) (by decide) (by decide) (by decide)
    (by decide) (by decide) (by decide) (by decide) (by decide)

/-- C8: the invoice date is the raw text captured by the first
`INVOICE_DATE` match, verbatim (a contiguous segment of the input, no
parsing or normalisation), and null exactly when the pattern is absent. -/
theorem C8_invoice_date_verbatim (text : List Char) :
    (∀ f, parseFields text = some f →
      f.inv_date =
        ((reSearch INVOICE_DATE text).bind (fun caps => grp caps 1)).map
          pyStrip ∧
      (reSearch INVOICE_DATE text = none → f.inv_date = none) ∧
      (∀ s, f.inv_date = some s → containsSeg s text)) ∧
    invDateOf ("INVOICE DATE 15-Mar-2024 END".data)
      = some ("15-Mar-2024".data) := by
  refine ⟨?_, by decide⟩
  intro f hf
  obtain ⟨d, chg, st, fr, -, -, -, -, hfe⟩ := parseFields_eq hf
  have hinv : f.inv_date = invDateOf text := by rw [hfe]
  refine ⟨hinv, ?_, ?_⟩
  · intro hn
    rw [hinv]
    unfold invDateOf
    rw [hn]
    rfl
  · intro s hs
    rw [hinv] at hs
    unfold invDateOf at hs
    cases hsea : reSearch INVOICE_DATE text with
    | none => rw [hsea] at hs; simp at hs
    | some caps =>
      rw [hsea] at hs
      simp only [Option.some_bind] at hs
      cases hg : grp caps 1 with
      | none => rw [hg] at hs; simp at hs
      | some d0 =>
        rw [hg] at hs
        simp at hs
        have hseg := reSearch_caps INVOICE_DATE text caps hsea (1, d0)
          (grp_mem hg)
        rw [← hs]
        exact containsSeg_trans (pyStrip_seg d0) hseg

/-- Witness for C8: a concrete dated document, with the capture a verbatim
segment of the text. -/
theorem C8_witness :
    parseFields ("INVOICE DATE 15-Mar-2024 END".data) =
      some ⟨some ("15-Mar-2024".data), "USD".data, none, none, none, none,
            none, none, none, none, none⟩ ∧
    containsSeg ("15-Mar-2024".data) ("INVOICE DATE 15-Mar-2024 END".data) := by
  have hpf : parseFields ("INVOICE DATE 15-Mar-2024 END".data) =
      some ⟨some ("15-Mar-2024".data), "USD".data, none, none, none, none,
            none, none, none, none, none⟩ := by decide
  exact ⟨hpf, ((C8_invoice_date_verbatim _).1 _ hpf).2.2 _ (by decide)⟩
